import Mathlib

/-!
Verification of the Elasticsearch benchmark harness
(repository `crawler`: `run_elasticsearch.py`, `docker_setup.py`,
`src/preprocessor.py`).

The harness drives bulk indexing, issues a fixed query workload and
computes latency / throughput / footprint statistics.  The driver module
`src/elasticsearch_impl/es_indexer.py` (ElasticsearchIndexer,
load_jsonl_data) is imported by `run_elasticsearch.py` but its source is
not part of the repository snapshot; where a property depends on it, the
corresponding definition is modelled from the specification and marked
as such in its doc-string.
-/

namespace Crawler

/-! ## Query Set Generator (`run_elasticsearch.py`, `generate_test_queries`) -/

/-- The literal query list built by `generate_test_queries` in
`run_elasticsearch.py` (lines 47-83), in source order. -/
def generate_test_queries : List String :=
  [ -- Technology (common terms)
    "artificial intelligence machine learning",
    "software development programming",
    "data science analytics",
    "cloud computing infrastructure",
    "cybersecurity network protection",
    "quantum computing research",
    -- Science (moderate frequency)
    "climate change environment",
    "space exploration technology",
    "medical research health",
    "renewable energy solar",
    "genetic engineering biology",
    -- Politics/Economy (common terms)
    "economic policy government",
    "election campaign politics",
    "international relations diplomacy",
    -- General (mixed)
    "education system reform",
    "transportation infrastructure",
    "financial markets investment",
    "social media platform",
    "healthcare insurance coverage",
    -- Single word queries
    "technology",
    "science",
    "education",
    -- Rare terms (likely low frequency)
    "quantum entanglement photon",
    "blockchain cryptocurrency decentralized" ]

/-- The Python body of `generate_test_queries` constructs a literal list:
it reads no parameter, no global state, no file and no random source.  An
invocation is therefore a function of the (ignored) call occasion alone;
`occasion` stands for any distinguishing context of a call (run number,
dataset, time). -/
def generate_test_queries_invocation (_occasion : Nat) : List String :=
  generate_test_queries

/-- Word counter: scans the characters, counting maximal runs of
non-space characters (`inWord` remembers whether the previous character
was part of a word). -/
def countWordsAux : List Char → Bool → Nat
  | [], _ => 0
  | c :: cs, inWord =>
    if c = ' ' then countWordsAux cs false
    else (if inWord then 0 else 1) + countWordsAux cs true

/-- Number of space-separated words of a query string, as the spec counts
tokens of a query (1-4 words). -/
def queryWordCount (q : String) : Nat :=
  countWordsAux q.data false

/-! ## Search Benchmark Driver statistics

Modelled from the spec: `batch_search` lives in
`src/elasticsearch_impl/es_indexer.py`, which is not in the repository
snapshot; §4.4 of the spec fixes its contract.  Latencies are exact
rationals (milliseconds), so every computed value is finite by
construction — there is no `inf`/`NaN` inhabitant.  The percentile
method is the deterministic nearest-rank method named by the spec:
`P_p` of `n` sorted samples is the sample at rank `⌈p·n/100⌉`. -/

/-- The latency sequence sorted ascending (pure, deterministic). -/
def sortedLatencies (L : List ℚ) : List ℚ :=
  L.insertionSort (· ≤ ·)

/-- Nearest rank of the `p`-th percentile among `n` samples:
`⌈p·n/100⌉`, computed in integer arithmetic. -/
def nearestRank (p n : Nat) : Nat :=
  (p * n + 99) / 100

/-- Modelled from the spec: nearest-rank percentile of the latency
sequence; `0` ("no data") when the sequence is empty. -/
def percentileLatency (p : Nat) (L : List ℚ) : ℚ :=
  (sortedLatencies L).getD (nearestRank p L.length - 1) 0

/-- Modelled from the spec: minimum latency, `0` ("no data") on an empty
sequence. -/
def minLatency (L : List ℚ) : ℚ :=
  (sortedLatencies L).getD 0 0

/-- Modelled from the spec: maximum latency, `0` ("no data") on an empty
sequence. -/
def maxLatency (L : List ℚ) : ℚ :=
  (sortedLatencies L).getD (L.length - 1) 0

/-- Modelled from the spec: standard statistical median (mean of the two
middle order statistics for an even count), `0` ("no data") on an empty
sequence. -/
def medianLatency (L : List ℚ) : ℚ :=
  let s := sortedLatencies L
  let n := L.length
  if n = 0 then 0
  else if n % 2 = 1 then s.getD (n / 2) 0
  else (s.getD (n / 2 - 1) 0 + s.getD (n / 2) 0) / 2

/-- Modelled from the spec: arithmetic mean, `0` ("no data") on an empty
sequence. -/
def meanLatency (L : List ℚ) : ℚ :=
  if L.length = 0 then 0 else L.sum / L.length

/-- The aggregate statistics block of a search run, with the field names
used by the JSON artifacts of `run_elasticsearch.py`. -/
structure SearchStats where
  mean_latency_ms : ℚ
  median_latency_ms : ℚ
  p95_latency_ms : ℚ
  p99_latency_ms : ℚ
  min_latency_ms : ℚ
  max_latency_ms : ℚ
deriving Repr, DecidableEq

/-- Modelled from the spec: the aggregates recomputed deterministically
from the latency sequence (§3, SearchRun invariant). -/
def searchStats (L : List ℚ) : SearchStats :=
  { mean_latency_ms := meanLatency L
    median_latency_ms := medianLatency L
    p95_latency_ms := percentileLatency 95 L
    p99_latency_ms := percentileLatency 99 L
    min_latency_ms := minLatency L
    max_latency_ms := maxLatency L }

/-- Result of executing the full query set against one index (§3). -/
structure SearchRun where
  index_name : String
  queries : List String
  latencies : List ℚ
  stats : SearchStats
deriving Repr, DecidableEq

/-- Modelled from the spec: `batch_search(index, queries, size)` executes
each query sequentially, recording per-query wall-clock latency, then
derives the aggregates.  The observed latency of a query against an
index is supplied by the oracle `latencyMs` (the live service is an
external collaborator); the function is total, so an empty query
sequence cannot raise. -/
def batch_search (latencyMs : String → String → ℚ) (index_name : String)
    (queries : List String) : SearchRun :=
  let L := queries.map (latencyMs index_name)
  { index_name := index_name
    queries := queries
    latencies := L
    stats := searchStats L }

/-! ## Corpus Loader

`run_elasticsearch.py` checks `os.path.exists` on the corpus path and
then calls `load_jsonl_data(file, limit=5000)`; the latter lives in
`src/elasticsearch_impl/es_indexer.py`, which is not in the repository
snapshot, so it is modelled from §4.1 of the spec. -/

/-- A corpus document: an opaque record with at least an identifier and
a text field (§3, Document). -/
structure Document where
  id : Nat
  text : String
deriving Repr, DecidableEq

/-- A parsed line of a line-delimited corpus file: `none` stands for a
malformed record (a line `json.loads` rejects), `some d` for a valid
one. -/
abbrev RawRecord : Type := Option Document

/-- Loader failures distinguished by §4.1 and §7 of the spec. -/
inductive LoadError where
  | dataNotFound
  | emptyCorpus
deriving Repr, DecidableEq

/-- Modelled from the spec: the loader scans the lines in order; a valid
record is appended to the result (until `limit` records are kept), a
malformed record is skipped and counted as one recoverable warning. -/
def loadLines : List RawRecord → Nat → List Document × Nat
  | [], _ => ([], 0)
  | _ :: _, 0 => ([], 0)
  | line :: rest, Nat.succ limit =>
    match line with
    | some d =>
      let (docs, warns) := loadLines rest limit
      (d :: docs, warns)
    | none =>
      let (docs, warns) := loadLines rest (Nat.succ limit)
      (docs, warns + 1)

/-- Modelled from the spec: `load_jsonl_data(source, limit)`.  A missing
source path (`none`) fails with `DataNotFoundError`; otherwise malformed
lines are skipped with warnings, and if no valid record remains the load
fails with `EmptyCorpusError` (§4.1). -/
def load_jsonl_data (source : Option (List RawRecord)) (limit : Nat) :
    Except LoadError (List Document × Nat) :=
  match source with
  | none => .error .dataNotFound
  | some lines =>
    let (docs, warns) := loadLines lines limit
    if docs = [] then .error .emptyCorpus else .ok (docs, warns)

/-! ## Indexing Driver throughput

Modelled from the spec: `index_documents` lives in
`src/elasticsearch_impl/es_indexer.py`, which is not in the repository
snapshot; §4.3 of the spec fixes its contract, including the guard
against a near-zero elapsed time. -/

/-- Modelled from the spec: `docs_per_second = total_docs / elapsed_seconds`,
except that an elapsed time below the minimum-elapsed floor `floorSec`
yields the sentinel `none` ("undefined" throughput) instead of a
division by (near-)zero.  Values are exact rationals, so the result is
finite by construction. -/
def docsPerSecond (floorSec : ℚ) (n : Nat) (t : ℚ) : Option ℚ :=
  if t < floorSec then none else some ((n : ℚ) / t)

/-- The minimum-elapsed floor used by the modelled driver: one
millisecond. -/
def minElapsedFloor : ℚ := 1 / 1000

/-- Result of submitting a document batch (§3, IndexingRun). -/
structure IndexingRun where
  total_docs : Nat
  elapsed_seconds : ℚ
  docs_per_second : Option ℚ
deriving Repr, DecidableEq

/-- Modelled from the spec: submitting a document batch measures the
wall-clock duration of the whole submission (supplied by the oracle
`elapsed`, the live service being an external collaborator) and derives
the throughput. -/
def index_documents (elapsed : ℚ) (docs : List Document) : IndexingRun :=
  { total_docs := docs.length
    elapsed_seconds := elapsed
    docs_per_second := docsPerSecond minElapsedFloor docs.length elapsed }

/-! ## The `main` pipeline of `run_elasticsearch.py`

The control flow of `main` (lines 88-358) over an explicit environment:
the file system (the two corpus sources, `none` when the path fails the
`os.path.exists` check), the reachability of the search service, and the
oracles for the measured quantities (wall-clock durations, per-query
latencies, index store sizes), which stand for the live Elasticsearch
collaborator. -/

/-- The environment `main` runs against. -/
structure Env where
  /-- `ElasticsearchIndexer(auto_start_docker=True)` raises
  `ConnectionError` when this is `false`. -/
  serviceReachable : Bool
  /-- `data/raw/news/news_raw.jsonl`: `none` when absent. -/
  newsSource : Option (List RawRecord)
  /-- `data/raw/wiki/wiki_raw.jsonl`: `none` when absent. -/
  wikiSource : Option (List RawRecord)
  /-- Wall-clock seconds taken by the bulk submission to a named index. -/
  elapsedSeconds : String → ℚ
  /-- Observed latency (ms) of a query against a named index. -/
  latencyMs : String → String → ℚ
  /-- Store size (MB) reported by the service for a named index. -/
  storeSizeMB : String → ℚ

/-- One dataset block of the summary report (`summary["datasets"]`). -/
structure DatasetSummary where
  documents : Nat
  index_name : String
deriving Repr, DecidableEq

/-- One latency block of the summary report (`summary["artifacts"]["A_latency"]`). -/
structure LatencySummary where
  p95_ms : ℚ
  p99_ms : ℚ
  mean_ms : ℚ
deriving Repr, DecidableEq

/-- The summary report built at lines 248-284 of `run_elasticsearch.py`. -/
structure Summary where
  news : DatasetSummary
  wiki : DatasetSummary
  a_latency_news : LatencySummary
  a_latency_wiki : LatencySummary
  b_news_docs_per_sec : Option ℚ
  b_wiki_docs_per_sec : Option ℚ
  c_news_mb : ℚ
  c_wiki_mb : ℚ
  query_count : Nat
deriving Repr, DecidableEq

/-- Everything a successful run produces (the per-run JSON artifacts
plus the summary). -/
structure RunArtifacts where
  newsIndexing : IndexingRun
  wikiIndexing : IndexingRun
  newsSearch : SearchRun
  wikiSearch : SearchRun
  newsMemoryMB : ℚ
  wikiMemoryMB : ℚ
  summary : Summary
deriving Repr, DecidableEq

/-- Outcome of `main`: exit code 0 with the produced artifacts, or one
of the exit-code-1 paths of `run_elasticsearch.py` (the early `return 1`
after a failed existence check at lines 124-127 / 153-156, the
`except ConnectionError` handler at lines 343-348, and the handlers
catching a loader failure). -/
inductive MainResult where
  | ok (artifacts : RunArtifacts)
  | missingDataFile (path : String)
  | connectionFailure
  | loadFailure (e : LoadError)
deriving Repr, DecidableEq

/-- The index names of lines 132 and 161. -/
def newsIndexName : String := "esindex-v1.0-news"

/-- The wiki index name. -/
def wikiIndexName : String := "esindex-v1.0-wiki"

/-- The artifacts the successful path of `main` (steps 2-6 and the
summary of lines 248-284) produces from the two loaded document lists:
index both datasets, generate the test queries once, run the search
benchmark with the same query list against both indexes, collect the
footprints, compose the summary. -/
def mainArtifacts (env : Env) (newsDocs wikiDocs : List Document) : RunArtifacts :=
  let newsStats := index_documents (env.elapsedSeconds newsIndexName) newsDocs
  let wikiStats := index_documents (env.elapsedSeconds wikiIndexName) wikiDocs
  let test_queries := generate_test_queries
  let newsSearch := batch_search env.latencyMs newsIndexName test_queries
  let wikiSearch := batch_search env.latencyMs wikiIndexName test_queries
  let newsMemory := env.storeSizeMB newsIndexName
  let wikiMemory := env.storeSizeMB wikiIndexName
  { newsIndexing := newsStats
    wikiIndexing := wikiStats
    newsSearch := newsSearch
    wikiSearch := wikiSearch
    newsMemoryMB := newsMemory
    wikiMemoryMB := wikiMemory
    summary :=
      { news := { documents := newsStats.total_docs, index_name := newsIndexName }
        wiki := { documents := wikiStats.total_docs, index_name := wikiIndexName }
        a_latency_news :=
          { p95_ms := newsSearch.stats.p95_latency_ms
            p99_ms := newsSearch.stats.p99_latency_ms
            mean_ms := newsSearch.stats.mean_latency_ms }
        a_latency_wiki :=
          { p95_ms := wikiSearch.stats.p95_latency_ms
            p99_ms := wikiSearch.stats.p99_latency_ms
            mean_ms := wikiSearch.stats.mean_latency_ms }
        b_news_docs_per_sec := newsStats.docs_per_second
        b_wiki_docs_per_sec := wikiStats.docs_per_second
        c_news_mb := newsMemory
        c_wiki_mb := wikiMemory
        query_count := test_queries.length } }

/-- The `main` pipeline of `run_elasticsearch.py`: connect, check and
load each corpus file, then produce the run artifacts; each failure path
maps to the `return 1` exit it takes in the source. -/
def main (env : Env) : MainResult :=
  if ¬ env.serviceReachable then .connectionFailure
  else if env.newsSource.isNone then .missingDataFile "data/raw/news/news_raw.jsonl"
  else
    match load_jsonl_data env.newsSource 5000 with
    | .error e => .loadFailure e
    | .ok (newsDocs, _) =>
      if env.wikiSource.isNone then .missingDataFile "data/raw/wiki/wiki_raw.jsonl"
      else
        match load_jsonl_data env.wikiSource 5000 with
        | .error e => .loadFailure e
        | .ok (wikiDocs, _) => .ok (mainArtifacts env newsDocs wikiDocs)

/-! ## Text preprocessing (`src/preprocessor.py`, `preprocess_text`)

`preprocess_text` lowercases, removes URLs / HTML tags / non-alphabetic
symbols, tokenizes, drops stopwords and short tokens, and stems.  The
regular-expression substitutions are embedded as recursive scanners with
the same leftmost, greedy (`\S+`) resp. non-greedy (`.*?`) semantics as
the patterns of the source.  `word_tokenize` and `PorterStemmer` come
from the external `nltk` library; they are embedded from that library's
algorithm (whitespace splitting for the tokenizer on the symbol-free
strings it receives here, and the Porter algorithm in nltk's default
NLTK_EXTENSIONS mode for the stemmer). -/

/-- The characters matched by `\s` of Python's `re` on `str` (Unicode
whitespace): ASCII whitespace, the separator controls, NEL, NBSP, OGHAM
SPACE MARK, EN QUAD .. HAIR SPACE, LINE/PARAGRAPH SEPARATOR, NARROW
NBSP, MATHEMATICAL SPACE and IDEOGRAPHIC SPACE. -/
def pythonIsSpace (c : Char) : Bool :=
  c = ' ' ∨ c = '\t' ∨ c = '\n' ∨ c = '\u000b' ∨ c = '\u000c' ∨ c = '\r' ∨
  c = '\u001c' ∨ c = '\u001d' ∨ c = '\u001e' ∨ c = '\u001f' ∨ c = '\u0085' ∨
  c = ' ' ∨ c = ' ' ∨ (' ' ≤ c ∧ c ≤ ' ') ∨
  c = ' ' ∨ c = ' ' ∨ c = ' ' ∨ c = ' ' ∨ c = '　'

/-- A lowercase ASCII letter `a`-`z` (the alphabet `[^a-z\s]` keeps). -/
def lowerAlpha (c : Char) : Bool :=
  'a' ≤ c ∧ c ≤ 'z'

/-- Strip a literal pattern from the head of the character list,
returning the remainder on success. -/
def dropPrefixChars : List Char → List Char → Option (List Char)
  | [], l => some l
  | _ :: _, [] => none
  | p :: ps, c :: cs => if c = p then dropPrefixChars ps cs else none

/-- Try to match `lit` followed by `\S+` (greedy) at the head of `l`; on
success return what follows the match. -/
def urlAltMatch (lit : List Char) (l : List Char) : Option (List Char) :=
  match dropPrefixChars lit l with
  | some (d :: ds) =>
    if ¬ pythonIsSpace d then some ((d :: ds).dropWhile (fun c => ¬ pythonIsSpace c))
    else none
  | _ => none

/-- Try the alternatives of the pattern `http\S+|www\S+|https\S+` at the
head of `l`, in the order the pattern lists them (the third alternative
is subsumed by the first, as in the source pattern). -/
def urlMatchAt (l : List Char) : Option (List Char) :=
  ((urlAltMatch "http".data l).orElse fun _ =>
    (urlAltMatch "www".data l).orElse fun _ =>
      urlAltMatch "https".data l)

/-- `re.sub(r"http\S+|www\S+|https\S+", '', text)`: scan left to right;
where the pattern matches, drop the (greedy) match and continue after
it, otherwise keep the character.  A successful match always consumes at
least one character, so the fuel `n`, initialised to the length of the
list, never runs out. -/
def stripURLsAux : Nat → List Char → List Char
  | 0, l => l
  | _, [] => []
  | Nat.succ n, c :: cs =>
    match urlMatchAt (c :: cs) with
    | some rest => stripURLsAux n rest
    | none => c :: stripURLsAux n cs

/-- The URL-removal substitution of `preprocess_text` (line 18). -/
def stripURLs (l : List Char) : List Char :=
  stripURLsAux l.length l

/-- Try to match `<.*?>` at the head of `l`: `<`, then the shortest run
of non-newline characters (`.` does not match a newline), then `>`.  On
success return what follows the match. -/
def htmlMatchAt (l : List Char) : Option (List Char) :=
  match l with
  | '<' :: cs =>
    let inner := cs.takeWhile (fun c => ¬ (c = '>' ∨ c = '\n'))
    match cs.drop inner.length with
    | '>' :: rest => some rest
    | _ => none
  | _ => none

/-- `re.sub(r'<.*?>', '', text)` (line 19), scanning as `stripURLsAux`
does; a successful match consumes at least the two brackets. -/
def stripHTMLAux : Nat → List Char → List Char
  | 0, l => l
  | _, [] => []
  | Nat.succ n, c :: cs =>
    match htmlMatchAt (c :: cs) with
    | some rest => stripHTMLAux n rest
    | none => c :: stripHTMLAux n cs

/-- The HTML-tag-removal substitution of `preprocess_text`. -/
def stripHTML (l : List Char) : List Char :=
  stripHTMLAux l.length l

/-- `re.sub(r'[^a-z\s]', ' ', text)` (line 20): every character that is
neither a lowercase letter nor whitespace becomes a space. -/
def keepLowerAlphaOrSpace (l : List Char) : List Char :=
  l.map (fun c => if lowerAlpha c ∨ pythonIsSpace c then c else ' ')

/-- Split into maximal runs of non-whitespace characters; `acc` holds
the (reversed) characters of the run currently being read. -/
def splitSpacesAux : List Char → List Char → List (List Char)
  | [], acc => if acc = [] then [] else [acc.reverse]
  | c :: cs, acc =>
    if pythonIsSpace c then
      if acc = [] then splitSpacesAux cs []
      else acc.reverse :: splitSpacesAux cs []
    else splitSpacesAux cs (c :: acc)

/-- Split into maximal runs of non-whitespace characters. -/
def splitOnSpaces (l : List Char) : List (List Char) :=
  splitSpacesAux l []

/-- Model of nltk's `word_tokenize`, embedded for the strings it
receives in `preprocess_text`: after the three substitutions the text
contains only lowercase letters and whitespace, on which the
Punkt/Treebank pipeline reduces to whitespace splitting (its clitic,
punctuation and quote rules only fire on characters that have already
been replaced by spaces). -/
def word_tokenize (l : List Char) : List String :=
  (splitOnSpaces l).map String.mk

/-- The English stopword list of the nltk corpus data
(`stopwords.words("english")`, loaded once at module import).  The nltk
entries that contain an apostrophe (contracted forms such as negations
with nt) are omitted: after the `[^a-z\s]` substitution no token can
contain an apostrophe, so those entries can never match and their
omission does not change `preprocess_text` on any input. -/
def stop_words : List String :=
  [ "i", "me", "my", "myself", "we", "our", "ours", "ourselves",
    "you", "your", "yours", "yourself", "yourselves",
    "he", "him", "his", "himself", "she", "her", "hers", "herself",
    "it", "its", "itself", "they", "them", "their", "theirs", "themselves",
    "what", "which", "who", "whom", "this", "that", "these", "those",
    "am", "is", "are", "was", "were", "be", "been", "being",
    "have", "has", "had", "having", "do", "does", "did", "doing",
    "a", "an", "the", "and", "but", "if", "or", "because", "as",
    "until", "while", "of", "at", "by", "for", "with", "about",
    "against", "between", "into", "through", "during", "before",
    "after", "above", "below", "to", "from", "up", "down", "in",
    "out", "on", "off", "over", "under", "again", "further", "then",
    "once", "here", "there", "when", "where", "why", "how", "all",
    "any", "both", "each", "few", "more", "most", "other", "some",
    "such", "no", "nor", "not", "only", "own", "same", "so", "than",
    "too", "very", "s", "t", "can", "will", "just", "don", "should",
    "now", "d", "ll", "m", "o", "re", "ve", "y", "ain", "aren",
    "couldn", "didn", "doesn", "hadn", "hasn", "haven", "isn", "ma",
    "mightn", "mustn", "needn", "shan", "shouldn", "wasn", "weren",
    "won", "wouldn" ]

/-! ### The Porter stemmer (nltk `PorterStemmer`, default NLTK_EXTENSIONS
mode), embedded from the nltk implementation of the Porter algorithm.
Words are `List Char`; every helper mirrors the correspondingly named
nltk method. -/

/-- `a`, `e`, `i`, `o` or `u` (the nltk `vowels` set). -/
def isVowelChar (c : Char) : Bool :=
  c = 'a' ∨ c = 'e' ∨ c = 'i' ∨ c = 'o' ∨ c = 'u'

/-- nltk `_is_consonant(word, i)`: a vowel letter is not a consonant;
`y` is a consonant exactly when it is word-initial or follows a
non-consonant is false — i.e. follows a consonant is false; every other
letter is a consonant. -/
def isConsonant (w : List Char) : Nat → Bool
  | 0 =>
    -- a word-initial `y` is a consonant, as is any other non-vowel
    ¬ isVowelChar (w.getD 0 ' ')
  | Nat.succ j =>
    let c := w.getD (j + 1) ' '
    if isVowelChar c then false
    else if c = 'y' then ¬ isConsonant w j
    else true

/-- The consonant/vowel sequence of a word (`true` = consonant), as the
nltk `_measure` builds it. -/
def cvSeq (w : List Char) : List Bool :=
  (List.range w.length).map (isConsonant w)

/-- Occurrences of the pattern vowel-then-consonant, i.e. the count of
`"vc"` in the condensed cv string: the measure `m` of the Porter
algorithm. -/
def countVC : List Bool → Nat
  | [] => 0
  | [_] => 0
  | a :: b :: rest => (if a = false ∧ b = true then 1 else 0) + countVC (b :: rest)

/-- nltk `_measure`. -/
def measure (w : List Char) : Nat :=
  countVC (cvSeq w)

/-- nltk `_has_positive_measure`. -/
def measurePos (w : List Char) : Bool :=
  measure w > 0

/-- nltk `_contains_vowel`. -/
def containsVowel (w : List Char) : Bool :=
  (List.range w.length).any (fun i => ¬ isConsonant w i)

/-- nltk `_ends_double_consonant`. -/
def endsDoubleConsonant (w : List Char) : Bool :=
  w.length ≥ 2 ∧
  w.getD (w.length - 1) ' ' = w.getD (w.length - 2) ' ' ∧
  isConsonant w (w.length - 1)

/-- nltk `_ends_cvc`, including the NLTK_EXTENSIONS clause for two-letter
vowel-consonant words. -/
def endsCVC (w : List Char) : Bool :=
  (w.length ≥ 3 ∧
    isConsonant w (w.length - 3) ∧
    ¬ isConsonant w (w.length - 2) ∧
    isConsonant w (w.length - 1) ∧
    w.getD (w.length - 1) ' ' ≠ 'w' ∧
    w.getD (w.length - 1) ' ' ≠ 'x' ∧
    w.getD (w.length - 1) ' ' ≠ 'y') ∨
  (w.length = 2 ∧ ¬ isConsonant w 0 ∧ isConsonant w 1)

/-- nltk `_replace_suffix`: drop the suffix, append the replacement. -/
def replaceSuffix (w sfx rep : List Char) : List Char :=
  w.take (w.length - sfx.length) ++ rep

/-- A suffix pattern of a Porter rule: a literal suffix, or the `*d`
marker (word ends in a double consonant, of which one is removed). -/
inductive RuleSuffix where
  | str (sfx : List Char)
  | doubleCons

/-- One rule of an nltk `_apply_rule_list` call: suffix pattern,
replacement, and optional condition on the stem left after removing the
suffix. -/
structure PorterRule where
  sfx : RuleSuffix
  rep : List Char
  cond : Option (List Char → Bool)

/-- Whether an optional rule condition holds of a stem (`None` holds). -/
def condHolds (cond : Option (List Char → Bool)) (stem : List Char) : Bool :=
  match cond with
  | none => true
  | some f => f stem

/-- nltk `_apply_rule_list`: try the rules in order; at the first rule
whose suffix pattern matches, rewrite when its condition holds of the
remaining stem and otherwise return the word unchanged (a matching rule
stops the scan either way). -/
def applyRuleList (w : List Char) : List PorterRule → List Char
  | [] => w
  | r :: rs =>
    match r.sfx with
    | .doubleCons =>
      if endsDoubleConsonant w then
        let stem := w.take (w.length - 2)
        if condHolds r.cond stem then stem ++ r.rep else w
      else applyRuleList w rs
    | .str sfx =>
      if sfx.isSuffixOf w then
        let stem := w.take (w.length - sfx.length)
        if condHolds r.cond stem then stem ++ r.rep else w
      else applyRuleList w rs

/-- nltk `_step1a`, with the NLTK_EXTENSIONS special case keeping the
`e` of four-letter words in `ies` (e.g. `dies` → `die`). -/
def step1a (w : List Char) : List Char :=
  if "ies".data.isSuffixOf w ∧ w.length = 4 then
    replaceSuffix w "ies".data "ie".data
  else
    applyRuleList w
      [ ⟨.str "sses".data, "ss".data, none⟩,
        ⟨.str "ies".data, "i".data, none⟩,
        ⟨.str "ss".data, "ss".data, none⟩,
        ⟨.str "s".data, [], none⟩ ]

/-- The cleanup rule list run by nltk `_step1b` after a successful
`(*v*) ED ->` / `(*v*) ING ->` deletion; `stem` is the word after the
deletion (nltk's `intermediate_stem`, whose last letter the `*d` rule
re-appends once). -/
def step1bCleanup (stem : List Char) : List Char :=
  applyRuleList stem
    [ ⟨.str "at".data, "ate".data, none⟩,
      ⟨.str "bl".data, "ble".data, none⟩,
      ⟨.str "iz".data, "ize".data, none⟩,
      ⟨.doubleCons, [stem.getLastD 'a'],
        some (fun _ =>
          ¬ (stem.getLastD 'a' = 'l' ∨ stem.getLastD 'a' = 's' ∨ stem.getLastD 'a' = 'z'))⟩,
      ⟨.str [], "e".data,
        some (fun st => measure st = 1 ∧ endsCVC st)⟩ ]

/-- nltk `_step1b`: the NLTK_EXTENSIONS `ied` cases, then `(m>0) EED ->
EE`, then the vowel-conditioned `ED`/`ING` deletions followed by the
cleanup rules. -/
def step1b (w : List Char) : List Char :=
  if "ied".data.isSuffixOf w then
    if w.length = 4 then replaceSuffix w "ied".data "ie".data
    else replaceSuffix w "ied".data "i".data
  else if "eed".data.isSuffixOf w then
    let stem := replaceSuffix w "eed".data []
    if measure stem > 0 then stem ++ "ee".data else w
  else if "ed".data.isSuffixOf w ∧ containsVowel (replaceSuffix w "ed".data []) then
    step1bCleanup (replaceSuffix w "ed".data [])
  else if "ing".data.isSuffixOf w ∧ containsVowel (replaceSuffix w "ing".data []) then
    step1bCleanup (replaceSuffix w "ing".data [])
  else w

/-- nltk `_step1c` with the NLTK_EXTENSIONS condition: `y` → `i` when
preceded by a consonant and the stem keeps more than one letter. -/
def step1c (w : List Char) : List Char :=
  applyRuleList w
    [ ⟨.str "y".data, "i".data,
        some (fun stem => stem.length > 1 ∧ isConsonant stem (stem.length - 1))⟩ ]

/-- The rule list of nltk `_step2` in NLTK_EXTENSIONS mode (`bli` rule
variant plus the appended `fulli` rule), every condition `m > 0`. -/
def step2Rules : List PorterRule :=
  [ ⟨.str "ational".data, "ate".data, some measurePos⟩,
    ⟨.str "tional".data, "tion".data, some measurePos⟩,
    ⟨.str "enci".data, "ence".data, some measurePos⟩,
    ⟨.str "anci".data, "ance".data, some measurePos⟩,
    ⟨.str "izer".data, "ize".data, some measurePos⟩,
    ⟨.str "bli".data, "ble".data, some measurePos⟩,
    ⟨.str "alli".data, "al".data, some measurePos⟩,
    ⟨.str "entli".data, "ent".data, some measurePos⟩,
    ⟨.str "eli".data, "e".data, some measurePos⟩,
    ⟨.str "ousli".data, "ous".data, some measurePos⟩,
    ⟨.str "ization".data, "ize".data, some measurePos⟩,
    ⟨.str "ation".data, "ate".data, some measurePos⟩,
    ⟨.str "ator".data, "ate".data, some measurePos⟩,
    ⟨.str "alism".data, "al".data, some measurePos⟩,
    ⟨.str "iveness".data, "ive".data, some measurePos⟩,
    ⟨.str "fulness".data, "ful".data, some measurePos⟩,
    ⟨.str "ousness".data, "ous".data, some measurePos⟩,
    ⟨.str "aliti".data, "al".data, some measurePos⟩,
    ⟨.str "iviti".data, "ive".data, some measurePos⟩,
    ⟨.str "biliti".data, "ble".data, some measurePos⟩,
    ⟨.str "fulli".data, "ful".data, some measurePos⟩ ]

/-- nltk `_step2`: the NLTK_EXTENSIONS pre-check rewrites a qualifying
`alli` suffix to `al` and re-enters `_step2`; the re-entry cannot match
`alli` again (the rewritten word ends in `l`), so it amounts to running
the rule list on the rewritten word. -/
def step2 (w : List Char) : List Char :=
  if "alli".data.isSuffixOf w ∧ measurePos (replaceSuffix w "alli".data []) then
    applyRuleList (replaceSuffix w "alli".data "al".data) step2Rules
  else applyRuleList w step2Rules

/-- nltk `_step3`, every condition `m > 0`. -/
def step3 (w : List Char) : List Char :=
  applyRuleList w
    [ ⟨.str "icate".data, "ic".data, some measurePos⟩,
      ⟨.str "ative".data, [], some measurePos⟩,
      ⟨.str "alize".data, "al".data, some measurePos⟩,
      ⟨.str "iciti".data, "ic".data, some measurePos⟩,
      ⟨.str "ical".data, "ic".data, some measurePos⟩,
      ⟨.str "ful".data, [], some measurePos⟩,
      ⟨.str "ness".data, [], some measurePos⟩ ]

/-- `m(stem) > 1`, the condition of nltk `_step4`. -/
def measureGT1 (stem : List Char) : Bool :=
  measure stem > 1

/-- nltk `_step4`: deletions under `m > 1`; the `ion` rule additionally
requires the stem to end in `s` or `t` (nltk's conjunction
short-circuits, so the last letter is only consulted when the stem is
long enough for `m > 1`, which makes the `getLastD` default
unreachable). -/
def step4 (w : List Char) : List Char :=
  applyRuleList w
    [ ⟨.str "al".data, [], some measureGT1⟩,
      ⟨.str "ance".data, [], some measureGT1⟩,
      ⟨.str "ence".data, [], some measureGT1⟩,
      ⟨.str "er".data, [], some measureGT1⟩,
      ⟨.str "ic".data, [], some measureGT1⟩,
      ⟨.str "able".data, [], some measureGT1⟩,
      ⟨.str "ible".data, [], some measureGT1⟩,
      ⟨.str "ant".data, [], some measureGT1⟩,
      ⟨.str "ement".data, [], some measureGT1⟩,
      ⟨.str "ment".data, [], some measureGT1⟩,
      ⟨.str "ent".data, [], some measureGT1⟩,
      ⟨.str "ion".data, [],
        some (fun stem => measure stem > 1 ∧
          (stem.getLastD ' ' = 's' ∨ stem.getLastD ' ' = 't'))⟩,
      ⟨.str "ou".data, [], some measureGT1⟩,
      ⟨.str "ism".data, [], some measureGT1⟩,
      ⟨.str "ate".data, [], some measureGT1⟩,
      ⟨.str "iti".data, [], some measureGT1⟩,
      ⟨.str "ous".data, [], some measureGT1⟩,
      ⟨.str "ive".data, [], some measureGT1⟩,
      ⟨.str "ize".data, [], some measureGT1⟩ ]

/-- nltk `_step5a`: drop a final `e` when `m > 1`, or when `m = 1` and
the stem does not end cvc. -/
def step5a (w : List Char) : List Char :=
  if "e".data.isSuffixOf w then
    let stem := replaceSuffix w "e".data []
    if measure stem > 1 then stem
    else if measure stem = 1 ∧ ¬ endsCVC stem then stem
    else w
  else w

/-- nltk `_step5b`: `ll` → `l` when the measure of the word without its
last letter exceeds one. -/
def step5b (w : List Char) : List Char :=
  applyRuleList w
    [ ⟨.str "ll".data, "l".data, some (fun _ => measure w.dropLast > 1)⟩ ]

/-- The NLTK_EXTENSIONS pool of irregular forms, mapping each listed
form to its fixed stem. -/
def porterPool : List (List Char × List Char) :=
  [ ("sky".data, "sky".data), ("skies".data, "sky".data),
    ("dying".data, "die".data),
    ("lying".data, "lie".data),
    ("tying".data, "tie".data),
    ("news".data, "news".data),
    ("innings".data, "inning".data), ("inning".data, "inning".data),
    ("outings".data, "outing".data), ("outing".data, "outing".data),
    ("cannings".data, "canning".data), ("canning".data, "canning".data),
    ("howe".data, "howe".data),
    ("proceed".data, "proceed".data),
    ("exceed".data, "exceed".data),
    ("succeed".data, "succeed".data) ]

/-- nltk `PorterStemmer.stem` on a word of characters: the pool lookup,
the NLTK departure returning words of at most two letters unchanged,
then the eight steps.  (The initial `word.lower()` of `stem` is the
identity on every token `preprocess_text` passes in, all of which are
already lowercase.) -/
def porterStemChars (w : List Char) : List Char :=
  match porterPool.find? (fun p => p.1 == w) with
  | some p => p.2
  | none =>
    if w.length ≤ 2 then w
    else step5b (step5a (step4 (step3 (step2 (step1c (step1b (step1a w)))))))

/-- nltk `PorterStemmer.stem` on a string token. -/
def porterStem (t : String) : String :=
  String.mk (porterStemChars t.data)

/-- `preprocess_text` of `src/preprocessor.py` (lines 12-31): lowercase,
remove URLs, remove HTML tags, replace the remaining non-`[a-z\s]`
characters by spaces, tokenize, drop stopwords and tokens of length at
most two, and stem each remaining token. -/
def preprocess_text (text : String) : List String :=
  let t1 := text.data.map Char.toLower
  let t2 := stripURLs t1
  let t3 := stripHTML t2
  let t4 := keepLowerAlphaOrSpace t3
  let tokens := word_tokenize t4
  let kept := tokens.filter (fun word => ¬ stop_words.contains word ∧ word.length > 2)
  kept.map porterStem

/-! ## Auxiliary predicates and concrete fixtures used by the theorems -/

/-- Every character of the word is a lowercase ASCII letter. -/
def AllLA (w : List Char) : Prop :=
  ∀ c ∈ w, lowerAlpha c = true

instance (w : List Char) : Decidable (AllLA w) :=
  List.decidableBAll _ w

/-- Whether a loader result is specifically the `DataNotFoundError`
signal (used to state that this signal is reserved for a missing source
path). -/
def isDataNotFoundResult : Except LoadError (List Document × Nat) → Bool
  | .error .dataNotFound => true
  | _ => false

/-- A concrete environment on which the whole pipeline succeeds: both
corpus files present (the news file with one malformed line), service
reachable, constant oracles. -/
def envW : Env :=
  { serviceReachable := true
    newsSource := some [some ⟨1, "alpha"⟩, none, some ⟨2, "beta"⟩]
    wikiSource := some [some ⟨3, "gamma"⟩]
    elapsedSeconds := fun _ => 2
    latencyMs := fun _ _ => 5
    storeSizeMB := fun _ => 10 }

/-- The documents the loader extracts from `envW.newsSource`. -/
def newsDocsW : List Document := [⟨1, "alpha"⟩, ⟨2, "beta"⟩]

/-- The documents the loader extracts from `envW.wikiSource`. -/
def wikiDocsW : List Document := [⟨3, "gamma"⟩]

/-- `envW` with the search service unreachable. -/
def envUnreachable : Env :=
  { envW with serviceReachable := false }

/-! # Theorems -/

/-! ## Inversion of the success path of `main` -/

theorem main_ok_inv {env : Env} {a : RunArtifacts} (h : main env = .ok a) :
    ∃ newsDocs wikiDocs, a = mainArtifacts env newsDocs wikiDocs := by
  unfold main at h
  split at h
  · simp at h
  split at h
  · simp at h
  split at h
  · simp at h
  split at h
  · simp at h
  split at h
  · simp at h
  injection h with h
  exact ⟨_, _, h.symm⟩

/-! ## C3: determinism of the query set generator -/

/-- C3: the query set generator is a pure, deterministic function: any
two invocations — whatever distinguishes their call occasions — return
the same ordered sequence of query strings; the body consults no
randomness and no external state. -/
theorem claim_C3_query_generator_deterministic (occasion₁ occasion₂ : Nat) :
    generate_test_queries_invocation occasion₁ =
      generate_test_queries_invocation occasion₂ := rfl

/-! ## C5: diversity of the query set -/

/-- C5: the generated query set contains, for each word count 1, 2, 3
and 4, a query with exactly that many words, and it mixes common and
rare terms: it contains `"technology"` from the group the source labels
common single-word queries and `"quantum entanglement photon"` from the
group it labels rare terms. -/
theorem claim_C5_query_diversity :
    (∃ q ∈ generate_test_queries, queryWordCount q = 1) ∧
    (∃ q ∈ generate_test_queries, queryWordCount q = 2) ∧
    (∃ q ∈ generate_test_queries, queryWordCount q = 3) ∧
    (∃ q ∈ generate_test_queries, queryWordCount q = 4) ∧
    "technology" ∈ generate_test_queries ∧
    "quantum entanglement photon" ∈ generate_test_queries := by
  decide

/-! ## C9: the query count is always 24 -/

/-- C9: `generate_test_queries` returns exactly 24 query strings, and on
every successful run the summary's `query_count` field — computed as the
length of that list — equals 24. -/
theorem claim_C9_query_count (env : Env) (a : RunArtifacts)
    (h : main env = .ok a) :
    generate_test_queries.length = 24 ∧ a.summary.query_count = 24 := by
  obtain ⟨newsDocs, wikiDocs, rfl⟩ := main_ok_inv h
  exact ⟨rfl, rfl⟩

/-- Witness for C9 at the concrete environment `envW`. -/
theorem claim_C9_query_count_witness :
    generate_test_queries.length = 24 ∧
    (mainArtifacts envW newsDocsW wikiDocsW).summary.query_count = 24 :=
  claim_C9_query_count envW (mainArtifacts envW newsDocsW wikiDocsW) rfl

/-! ## C4: the identical query sequence is used for both datasets -/

/-- C4: on every successful run, the ordered query list recorded by the
search benchmark of the news index equals, element for element, the one
recorded for the wiki index, and both are exactly the unmutated output
of `generate_test_queries`. -/
theorem claim_C4_same_queries_both_datasets (env : Env) (a : RunArtifacts)
    (h : main env = .ok a) :
    a.newsSearch.queries = a.wikiSearch.queries ∧
    a.newsSearch.queries = generate_test_queries := by
  obtain ⟨newsDocs, wikiDocs, rfl⟩ := main_ok_inv h
  exact ⟨rfl, rfl⟩

/-- Witness for C4 at the concrete environment `envW`. -/
theorem claim_C4_same_queries_both_datasets_witness :
    (mainArtifacts envW newsDocsW wikiDocsW).newsSearch.queries =
      (mainArtifacts envW newsDocsW wikiDocsW).wikiSearch.queries :=
  (claim_C4_same_queries_both_datasets envW
    (mainArtifacts envW newsDocsW wikiDocsW) rfl).1

/-! ## C7: an unreachable service aborts the run -/

/-- C7: when the search service cannot be reached, `main` takes the
dedicated connection-failure exit (the `except ConnectionError` handler,
which surfaces remediation context and returns exit code 1); the run
never reaches the success path, so no statistics are computed on zero
documents. -/
theorem claim_C7_unreachable_service_aborts (env : Env)
    (h : env.serviceReachable = false) :
    main env = .connectionFailure := by
  unfold main
  rw [h]
  simp

/-- Witness for C7 at the concrete unreachable environment. -/
theorem claim_C7_unreachable_service_aborts_witness :
    main envUnreachable = .connectionFailure :=
  claim_C7_unreachable_service_aborts envUnreachable rfl

/-! ## C2: throughput is finite, non-negative, and guarded by the floor -/

/-- C2: for any positive minimum-elapsed floor, document count `n` and
elapsed time `t`: at or above the floor the reported throughput equals
`n / t` and is non-negative (an exact rational, hence finite — the model
has no `inf`/`NaN` inhabitant); below the floor it is the defined
sentinel `none` ("undefined"), never a division result. -/
theorem claim_C2_throughput_guarded (floorSec : ℚ) (hf : 0 < floorSec)
    (n : Nat) (t : ℚ) :
    (floorSec ≤ t →
      docsPerSecond floorSec n t = some ((n : ℚ) / t) ∧ 0 ≤ (n : ℚ) / t) ∧
    (t < floorSec → docsPerSecond floorSec n t = none) := by
  constructor
  · intro ht
    refine ⟨?_, div_nonneg (Nat.cast_nonneg n) (le_of_lt (lt_of_lt_of_le hf ht))⟩
    unfold docsPerSecond
    rw [if_neg (not_lt.mpr ht)]
  · intro ht
    unfold docsPerSecond
    rw [if_pos ht]

/-- Witness for C2 at the floor of the modelled driver, `n = 5`,
`t = 2`. -/
theorem claim_C2_throughput_guarded_witness :
    docsPerSecond minElapsedFloor 5 2 = some (((5 : Nat) : ℚ) / 2) ∧
    0 ≤ ((5 : Nat) : ℚ) / 2 :=
  (claim_C2_throughput_guarded minElapsedFloor
    (by norm_num [minElapsedFloor]) 5 2).1 (by norm_num [minElapsedFloor])

/-! ## C8: an empty query sequence never raises -/

/-- C8: the search benchmark driver is a total function, so an empty
query sequence cannot raise: it produces a `SearchRun` with zero
recorded latencies whose aggregates (mean, median, P95, P99, min, max)
are all the defined "no data" value `0`. -/
theorem claim_C8_empty_query_sequence (latencyMs : String → String → ℚ)
    (index_name : String) :
    (batch_search latencyMs index_name []).latencies = [] ∧
    (batch_search latencyMs index_name []).stats =
      { mean_latency_ms := 0
        median_latency_ms := 0
        p95_latency_ms := 0
        p99_latency_ms := 0
        min_latency_ms := 0
        max_latency_ms := 0 } :=
  ⟨rfl, rfl⟩

/-! ## C6: a missing source path is signaled distinctly -/

/-- C6: loading from a missing source path fails with
`DataNotFoundError`; that signal is reserved for the missing-path case —
no loader result on an existing file is `DataNotFoundError` — and a
malformed record is instead skipped with one recoverable warning, as on
the concrete file with three valid lines and one malformed line. -/
theorem claim_C6_missing_path_distinct_signal :
    (∀ limit, load_jsonl_data none limit = .error .dataNotFound) ∧
    (∀ lines limit,
      isDataNotFoundResult (load_jsonl_data (some lines) limit) = false) ∧
    load_jsonl_data
        (some [some ⟨1, "alpha"⟩, none, some ⟨2, "beta"⟩, some ⟨3, "gamma"⟩])
        5000 =
      .ok ([⟨1, "alpha"⟩, ⟨2, "beta"⟩, ⟨3, "gamma"⟩], 1) := by
  refine ⟨fun _ => rfl, ?_, rfl⟩
  intro lines limit
  unfold load_jsonl_data
  dsimp only
  split
  · rfl
  · rfl

/-! ## C1: ordering of the latency aggregates -/

theorem sorted_getD_le {S : List ℚ} (hs : S.Sorted (· ≤ ·)) {i j : Nat}
    (hij : i ≤ j) (hj : j < S.length) : S.getD i 0 ≤ S.getD j 0 := by
  have hi : i < S.length := lt_of_le_of_lt hij hj
  rw [List.getD_eq_getElem _ _ hi, List.getD_eq_getElem _ _ hj]
  have h := hs.rel_get_of_le (a := ⟨i, hi⟩) (b := ⟨j, hj⟩) hij
  simpa [List.get_eq_getElem] using h

/-- C1: for every non-empty latency sequence the aggregates satisfy
`min ≤ median ≤ max` and `median ≤ P95 ≤ P99 ≤ max` (nearest-rank
percentiles). -/
theorem claim_C1_latency_aggregate_order (L : List ℚ) (hL : L ≠ []) :
    (minLatency L ≤ medianLatency L ∧ medianLatency L ≤ maxLatency L) ∧
    (medianLatency L ≤ percentileLatency 95 L ∧
     percentileLatency 95 L ≤ percentileLatency 99 L ∧
     percentileLatency 99 L ≤ maxLatency L) := by
  have hsort : (sortedLatencies L).Sorted (· ≤ ·) :=
    List.sorted_insertionSort _ L
  have hlen : (sortedLatencies L).length = L.length :=
    List.length_insertionSort _ L
  have hn1 : 1 ≤ L.length := List.length_pos.mpr hL
  set S := sortedLatencies L
  set n := L.length with hn
  -- the relevant indices and their bounds
  have hmedhi : n / 2 < S.length := by rw [hlen]; omega
  have hmax : n - 1 < S.length := by rw [hlen]; omega
  have h95 : nearestRank 95 n - 1 < S.length := by
    rw [hlen]; unfold nearestRank; omega
  have h99 : nearestRank 99 n - 1 < S.length := by
    rw [hlen]; unfold nearestRank; omega
  have hmed95 : n / 2 ≤ nearestRank 95 n - 1 := by unfold nearestRank; omega
  have h9599 : nearestRank 95 n - 1 ≤ nearestRank 99 n - 1 := by
    unfold nearestRank; omega
  have h99max : nearestRank 99 n - 1 ≤ n - 1 := by unfold nearestRank; omega
  -- percentile and extremal aggregates in terms of S
  have hpercq : ∀ p, percentileLatency p L = S.getD (nearestRank p n - 1) 0 :=
    fun p => rfl
  have hminq : minLatency L = S.getD 0 0 := rfl
  have hmaxq : maxLatency L = S.getD (n - 1) 0 := rfl
  have hupper : medianLatency L ≤ S.getD (n / 2) 0 := by
    unfold medianLatency
    dsimp only
    rw [if_neg (by omega : ¬ n = 0)]
    split
    · exact le_refl _
    · have := sorted_getD_le hsort (by omega : n / 2 - 1 ≤ n / 2) hmedhi
      linarith
  have hlower : S.getD 0 0 ≤ medianLatency L := by
    unfold medianLatency
    dsimp only
    rw [if_neg (by omega : ¬ n = 0)]
    split
    · exact sorted_getD_le hsort (by omega) hmedhi
    · have ha := sorted_getD_le hsort (by omega : 0 ≤ n / 2 - 1)
        (by rw [hlen]; omega : n / 2 - 1 < S.length)
      have hb := sorted_getD_le hsort (by omega : 0 ≤ n / 2) hmedhi
      linarith
  refine ⟨⟨?_, ?_⟩, ?_, ?_, ?_⟩
  · rw [hminq]; exact hlower
  · rw [hmaxq]
    exact le_trans hupper (sorted_getD_le hsort (by omega) hmax)
  · rw [hpercq]
    exact le_trans hupper (sorted_getD_le hsort hmed95 h95)
  · rw [hpercq, hpercq]
    exact sorted_getD_le hsort h9599 h99
  · rw [hpercq, hmaxq]
    exact sorted_getD_le hsort h99max hmax

/-- Witness for C1 at the concrete latency sequence `[30, 10, 20]`. -/
theorem claim_C1_latency_aggregate_order_witness :
    (minLatency [30, 10, 20] ≤ medianLatency [30, 10, 20] ∧
     medianLatency [30, 10, 20] ≤ maxLatency [30, 10, 20]) ∧
    (medianLatency [30, 10, 20] ≤ percentileLatency 95 [30, 10, 20] ∧
     percentileLatency 95 [30, 10, 20] ≤ percentileLatency 99 [30, 10, 20] ∧
     percentileLatency 99 [30, 10, 20] ≤ maxLatency [30, 10, 20]) :=
  claim_C1_latency_aggregate_order [30, 10, 20] (by decide)

/-! ## C10: every token of `preprocess_text` is lowercase alphabetic -/

theorem allLA_append {u v : List Char} (hu : AllLA u) (hv : AllLA v) :
    AllLA (u ++ v) := by
  intro c hc
  rcases List.mem_append.mp hc with h | h
  exacts [hu c h, hv c h]

theorem allLA_take {w : List Char} (hw : AllLA w) (k : Nat) :
    AllLA (w.take k) :=
  fun c hc => hw c (List.mem_of_mem_take hc)

theorem allLA_dropLast {w : List Char} (hw : AllLA w) : AllLA w.dropLast :=
  fun c hc => hw c ((List.dropLast_sublist w).mem hc)

theorem allLA_replaceSuffix {w rep : List Char} (sfx : List Char)
    (hw : AllLA w) (hrep : AllLA rep) : AllLA (replaceSuffix w sfx rep) := by
  unfold replaceSuffix
  exact allLA_append (allLA_take hw _) hrep

theorem allLA_getLastD {w : List Char} (hw : AllLA w) :
    lowerAlpha (w.getLastD 'a') = true := by
  cases w with
  | nil => decide
  | cons a as =>
    have hne : a :: as ≠ [] := by simp
    rw [List.getLastD_eq_getLast?, List.getLast?_eq_getLast _ hne]
    exact hw _ (List.getLast_mem hne)

theorem allLA_applyRuleList {w : List Char} (hw : AllLA w) :
    ∀ rules : List PorterRule, (∀ r ∈ rules, AllLA r.rep) →
      AllLA (applyRuleList w rules) := by
  intro rules
  induction rules with
  | nil => intro _; exact hw
  | cons r rs ih =>
    intro hr
    have hrrep : AllLA r.rep := hr r (List.mem_cons_self r rs)
    have hrs : ∀ x ∈ rs, AllLA x.rep := fun x hx => hr x (List.mem_cons_of_mem _ hx)
    unfold applyRuleList
    cases r.sfx with
    | doubleCons =>
      dsimp only
      split
      · split
        · exact allLA_append (allLA_take hw _) hrrep
        · exact hw
      · exact ih hrs
    | str sfx =>
      dsimp only
      split
      · split
        · exact allLA_append (allLA_take hw _) hrrep
        · exact hw
      · exact ih hrs

theorem allLA_step1a {w : List Char} (hw : AllLA w) : AllLA (step1a w) := by
  unfold step1a
  split
  · exact allLA_replaceSuffix _ hw (by decide)
  · exact allLA_applyRuleList hw _ (by decide)

theorem allLA_step1bCleanup {stem : List Char} (hw : AllLA stem) :
    AllLA (step1bCleanup stem) := by
  unfold step1bCleanup
  refine allLA_applyRuleList hw _ ?_
  intro r hr
  simp only [List.mem_cons, List.not_mem_nil, or_false] at hr
  rcases hr with rfl | rfl | rfl | rfl | rfl
  · decide
  · decide
  · decide
  · intro c hc
    simp only [List.mem_singleton] at hc
    subst hc
    exact allLA_getLastD hw
  · decide

theorem allLA_step1b {w : List Char} (hw : AllLA w) : AllLA (step1b w) := by
  unfold step1b
  split
  · split
    · exact allLA_replaceSuffix _ hw (by decide)
    · exact allLA_replaceSuffix _ hw (by decide)
  split
  · dsimp only
    split
    · exact allLA_append (allLA_replaceSuffix _ hw (by decide)) (by decide)
    · exact hw
  split
  · exact allLA_step1bCleanup (allLA_replaceSuffix _ hw (by decide))
  split
  · exact allLA_step1bCleanup (allLA_replaceSuffix _ hw (by decide))
  · exact hw

theorem allLA_step1c {w : List Char} (hw : AllLA w) : AllLA (step1c w) := by
  unfold step1c
  exact allLA_applyRuleList hw _ (by decide)

theorem allLA_step2 {w : List Char} (hw : AllLA w) : AllLA (step2 w) := by
  unfold step2
  split
  · exact allLA_applyRuleList (allLA_replaceSuffix _ hw (by decide)) _ (by decide)
  · exact allLA_applyRuleList hw _ (by decide)

theorem allLA_step3 {w : List Char} (hw : AllLA w) : AllLA (step3 w) := by
  unfold step3
  exact allLA_applyRuleList hw _ (by decide)

theorem allLA_step4 {w : List Char} (hw : AllLA w) : AllLA (step4 w) := by
  unfold step4
  exact allLA_applyRuleList hw _ (by decide)

theorem allLA_step5a {w : List Char} (hw : AllLA w) : AllLA (step5a w) := by
  unfold step5a
  split
  · dsimp only
    split
    · exact allLA_replaceSuffix _ hw (by decide)
    split
    · exact allLA_replaceSuffix _ hw (by decide)
    · exact hw
  · exact hw

theorem allLA_step5b {w : List Char} (hw : AllLA w) : AllLA (step5b w) := by
  unfold step5b
  refine allLA_applyRuleList hw _ ?_
  intro r hr
  simp only [List.mem_singleton] at hr
  subst hr
  show AllLA "l".data
  decide

theorem allLA_porterStemChars {w : List Char} (hw : AllLA w) :
    AllLA (porterStemChars w) := by
  unfold porterStemChars
  split
  · next p hp =>
    have hpool : ∀ q ∈ porterPool, AllLA q.2 := by decide
    exact hpool p (List.mem_of_find?_eq_some hp)
  · split
    · exact hw
    · exact allLA_step5b (allLA_step5a (allLA_step4 (allLA_step3 (allLA_step2
        (allLA_step1c (allLA_step1b (allLA_step1a hw)))))))

theorem splitSpacesAux_spec (P : Char → Prop) (l : List Char) :
    ∀ acc : List Char,
      (∀ c ∈ l, pythonIsSpace c = false → P c) →
      (∀ c ∈ acc, P c) →
      ∀ t ∈ splitSpacesAux l acc, ∀ c ∈ t, P c := by
  induction l with
  | nil =>
    intro acc _ hacc t ht c hc
    unfold splitSpacesAux at ht
    split at ht
    · simp at ht
    · simp only [List.mem_singleton] at ht
      subst ht
      exact hacc c (List.mem_reverse.mp hc)
  | cons a as ih =>
    intro acc hl hacc t ht c hc
    unfold splitSpacesAux at ht
    by_cases hsp : pythonIsSpace a = true
    · rw [if_pos hsp] at ht
      by_cases hne : acc = ([] : List Char)
      · rw [if_pos hne] at ht
        exact ih [] (fun x hx h => hl x (List.mem_cons_of_mem _ hx) h)
          (by simp) t ht c hc
      · rw [if_neg hne] at ht
        rcases List.mem_cons.mp ht with rfl | ht2
        · exact hacc c (List.mem_reverse.mp hc)
        · exact ih [] (fun x hx h => hl x (List.mem_cons_of_mem _ hx) h)
            (by simp) t ht2 c hc
    · rw [if_neg hsp] at ht
      have hsp' : pythonIsSpace a = false := by simpa using hsp
      refine ih (a :: acc) (fun x hx h => hl x (List.mem_cons_of_mem _ hx) h)
        ?_ t ht c hc
      intro x hx
      rcases List.mem_cons.mp hx with rfl | h2
      · exact hl x (List.mem_cons_self _ _) hsp'
      · exact hacc x h2

theorem keepLowerAlphaOrSpace_chars (l : List Char) :
    ∀ c ∈ keepLowerAlphaOrSpace l,
      lowerAlpha c = true ∨ pythonIsSpace c = true := by
  intro c hc
  unfold keepLowerAlphaOrSpace at hc
  obtain ⟨x, _, rfl⟩ := List.mem_map.mp hc
  by_cases h : (lowerAlpha x = true ∨ pythonIsSpace x = true)
  · rw [if_pos h]; exact h
  · rw [if_neg h]; right; decide

/-- C10: every token returned by `preprocess_text` consists only of
lowercase ASCII letters `a`-`z`: uppercase characters are lowercased,
all URLs, HTML tags, digits, punctuation and other non-alphabetic
symbols have been replaced before tokenization, and stemming preserves
the lowercase-alphabetic character set. -/
theorem claim_C10_tokens_lowercase_alpha (s t : String)
    (ht : t ∈ preprocess_text s) : t.data.all lowerAlpha = true := by
  unfold preprocess_text at ht
  dsimp only at ht
  obtain ⟨tok, htokf, rfl⟩ := List.mem_map.mp ht
  have htok : tok ∈ word_tokenize
      (keepLowerAlphaOrSpace (stripHTML (stripURLs (s.data.map Char.toLower)))) :=
    List.mem_of_mem_filter htokf
  unfold word_tokenize at htok
  obtain ⟨chars, hchars, rfl⟩ := List.mem_map.mp htok
  unfold splitOnSpaces at hchars
  have hAll : AllLA chars :=
    splitSpacesAux_spec (fun c => lowerAlpha c = true) _ []
      (fun c hc hns => by
        rcases keepLowerAlphaOrSpace_chars _ c hc with h | h
        · exact h
        · rw [h] at hns; exact absurd hns (by simp))
      (by simp) chars hchars
  have hstem : AllLA (porterStemChars chars) := allLA_porterStemChars hAll
  exact List.all_eq_true.mpr hstem

/-- Witness for C10: `preprocess_text` on the concrete input
`"Running"` yields the single token `"run"`, all of whose characters
are lowercase letters. -/
theorem claim_C10_tokens_lowercase_alpha_witness :
    preprocess_text "Running" = ["run"] ∧
    ("run" : String).data.all lowerAlpha = true := by
  have hpp : preprocess_text "Running" = ["run"] := rfl
  refine ⟨hpp, claim_C10_tokens_lowercase_alpha "Running" "run" ?_⟩
  rw [hpp]
  exact List.mem_singleton.mpr rfl

end Crawler
